import Mathlib

/-!
Shallow embedding of the character-state model of the dndbeyond desktop app.

The definitions below are translated from the TypeScript source:
  src/types/character.ts          (Character record, getAbilityModifier)
  src/pages/CharacterSheet.tsx    (sheet mutation handlers: long rest, spell
                                   slots, HP inputs, hit dice, level up,
                                   death saves)
  src/pages/CharactersPage.tsx    (creation-flow ability validation,
                                   standard array, point buy)
JavaScript numbers are modelled as Int (every claim is about integer-valued
state), JS arrays as List, JS objects used as string-keyed maps as
association lists, and optional fields as Option.
-/

/-- From src/types/character.ts (getAbilityModifier): Math.floor((score - 10) / 2).
Math.floor on an integer-valued float is floor division, Int.fdiv. -/
def getAbilityModifier (score : Int) : Int :=
  Int.fdiv (score - 10) 2

/-- The classHitDie lookup table repeated inline in CharacterSheet.tsx
(hit-dice display, short rest, level-up modal), with its ?? 8 default. -/
def classHitDie (cls : String) : Int :=
  if cls = "Bard" then 8
  else if cls = "Barbarian" then 12
  else if cls = "Fighter" then 10
  else if cls = "Paladin" then 10
  else if cls = "Ranger" then 10
  else if cls = "Cleric" then 8
  else if cls = "Druid" then 8
  else if cls = "Monk" then 8
  else if cls = "Rogue" then 8
  else if cls = "Warlock" then 8
  else if cls = "Sorcerer" then 6
  else if cls = "Wizard" then 6
  else 8

/-- Ability scores record from src/types/character.ts. -/
structure AbilityScores where
  strength : Int
  dexterity : Int
  constitution : Int
  intelligence : Int
  wisdom : Int
  charisma : Int
  deriving Repr, DecidableEq

/-- Character record from src/types/character.ts, restricted to the fields the
sheet operations under study read or write.  The TS field named class is
rendered className (class is reserved in Lean). -/
structure Character where
  id : String
  name : String
  race : String
  className : String
  background : String
  level : Int
  ability_scores : AbilityScores
  hit_points : Int
  armor_class : Int
  spells : List String
  spell_slots : List Int
  max_hit_points : Option Int
  temp_hp : Option Int
  hit_dice_remaining : Option Int
  death_saves_success : Option (List Bool)
  death_saves_failure : Option (List Bool)
  used_abilities : List String
  spell_slots_used : List (String × List Bool)
  deriving Repr, DecidableEq

/-- JS falsy-or on the level field: character.level || 1. -/
def jsOrOne (n : Int) : Int :=
  if n = 0 then 1 else n

/-- JS assignment arr[i] = !arr[i] on a boolean array: within bounds it flips
the element; past the end it extends the array, the gap reads back as falsy
(modelled false) and the written element is !undefined = true. -/
def jsToggleAt (arr : List Bool) (i : Nat) : List Bool :=
  if i < arr.length then arr.set i (!(arr.getD i false))
  else arr ++ List.replicate (i - arr.length) false ++ [true]

/-- The while (arr.length < maxSlots) arr.push(false) padding loop in
toggleSpellSlot. -/
def padFalse (arr : List Bool) (n : Nat) : List Bool :=
  arr ++ List.replicate (n - arr.length) false

/-- JS object write on a string-keyed map modelled as an association list:
an existing key is overwritten in place, a new key is appended. -/
def setKey (m : List (String × List Bool)) (k : String) (v : List Bool) :
    List (String × List Bool) :=
  if (m.lookup k).isSome then
    m.map (fun p => if p.1 == k then (k, v) else p)
  else m ++ [(k, v)]

/-- Max slot count resolution in toggleSpellSlot (CharacterSheet.tsx 356-358):
spell_slots[level - 1] when that entry exists, otherwise 2 for a first-level
slot of a Bard of character level at least 1, otherwise 0. -/
def resolveMaxSlots (c : Character) (level : Int) : Int :=
  if h : 0 ≤ level - 1 ∧ (level - 1).toNat < c.spell_slots.length then
    c.spell_slots.get ⟨(level - 1).toNat, h.2⟩
  else if level = 1 ∧ c.className = "Bard" ∧ 1 ≤ c.level then 2 else 0

/-- toggleSpellSlot from CharacterSheet.tsx 352-366. -/
def toggleSpellSlot (c : Character) (level : Int) (slotIndex : Nat) : Character :=
  let key := toString level
  let existing := c.spell_slots_used
  let maxSlots := resolveMaxSlots c level
  let arr0 :=
    match existing.lookup key with
    | some a => a
    | none => List.replicate maxSlots.toNat false
  let arr1 := padFalse arr0 maxSlots.toNat
  let arr2 := jsToggleAt arr1 slotIndex
  { c with spell_slots_used := setKey existing key arr2 }

/-- The long-rest confirm handler from CharacterSheet.tsx 1447-1467. -/
def applyLongRest (c : Character) : Character :=
  let level := jsOrOne c.level
  let currentRemaining := c.hit_dice_remaining.getD level
  let regain := max 1 (Int.fdiv level 2)
  let newRemaining := min level (currentRemaining + regain)
  { c with
    used_abilities := [],
    spell_slots_used := [],
    hit_points := c.max_hit_points.getD (level * classHitDie c.className),
    hit_dice_remaining := some newRemaining }

/-- The Current HP input onChange handler from CharacterSheet.tsx 587-591,
restricted to integer inputs; maxHit is max_hit_points ?? level * 8
(CharacterSheet.tsx 436). -/
def setHitPoints (c : Character) (raw : Int) : Character :=
  let maxHit := c.max_hit_points.getD (c.level * 8)
  { c with hit_points := max 0 (min raw maxHit) }

/-- The Max HP input onChange handler from CharacterSheet.tsx 599-607,
restricted to integer inputs. -/
def setMaxHitPoints (c : Character) (raw : Int) : Character :=
  let v := max 1 raw
  let updated := { c with max_hit_points := some v }
  if updated.hit_points > v then { updated with hit_points := v } else updated

/-- The Spend 1 Hit Die onClick handler from CharacterSheet.tsx 1508-1526.
The roll argument stands for Math.floor(Math.random() * die) + 1; JS
(character.hit_points || 0) is the identity on integer hit_points. -/
def spendHitDie (c : Character) (roll : Int) : Character :=
  let level := jsOrOne c.level
  let total := level
  let available := c.hit_dice_remaining.getD total
  if available ≤ 0 then c
  else
    let conMod := getAbilityModifier c.ability_scores.constitution
    let totalHeal := max 0 (roll + conMod)
    let maxHp := c.max_hit_points.getD (level * 8)
    let newHp := min maxHp (c.hit_points + totalHeal)
    { c with hit_points := newHp, hit_dice_remaining := some (max 0 (available - 1)) }

/-- The HP choice offered by the level-up modal: take the fixed average, or a
pre-rolled value supplied by the caller (levelUpHPRoll, already rolled). -/
inductive HPChoice where
  | average : HPChoice
  | rolled : Int → HPChoice

/-- The Confirm Level Up onClick handler from CharacterSheet.tsx 1750-1779.
Only the Bard branch adds hit points; max_hit_points falls back through
JS || to hit_points when it is absent or 0. -/
def levelUp (c : Character) (choice : HPChoice) : Character :=
  let conMod := getAbilityModifier c.ability_scores.constitution
  if c.className = "Bard" then
    let hpIncrease :=
      match choice with
      | HPChoice.average => 5 + conMod
      | HPChoice.rolled r => r + conMod
    let oldMax :=
      match c.max_hit_points with
      | some m => if m = 0 then c.hit_points else m
      | none => c.hit_points
    { c with
      level := c.level + 1,
      hit_points := c.hit_points + hpIncrease,
      max_hit_points := some (oldMax + hpIncrease) }
  else { c with level := c.level + 1 }

/-- Which death-save row a toggle button belongs to. -/
inductive DSKind where
  | success : DSKind
  | failure : DSKind
  deriving Repr, DecidableEq

/-- Effective death-save array of a character: the stored array, a missing one
defaulting to [false, false, false] (the ?? default in CharacterSheet.tsx
758 and 778). -/
def dsArr (c : Character) (kind : DSKind) : List Bool :=
  match kind with
  | DSKind.success => c.death_saves_success.getD [false, false, false]
  | DSKind.failure => c.death_saves_failure.getD [false, false, false]

/-- The death-save toggle onClick handlers from CharacterSheet.tsx 762-768
(success) and 782-788 (failure). -/
def toggleDeathSave (c : Character) (kind : DSKind) (i : Nat) : Character :=
  match kind with
  | DSKind.success =>
    { c with death_saves_success := some (jsToggleAt (dsArr c DSKind.success) i) }
  | DSKind.failure =>
    { c with death_saves_failure := some (jsToggleAt (dsArr c DSKind.failure) i) }

/-- The six ability keys of the creation flow (Object.keys(abilities) in
CharactersPage.tsx). -/
inductive Ability where
  | strength : Ability
  | dexterity : Ability
  | constitution : Ability
  | intelligence : Ability
  | wisdom : Ability
  | charisma : Ability
  deriving Repr, DecidableEq, Fintype

/-- The key order of the abilities record in CharactersPage.tsx. -/
def abilityKeys : List Ability :=
  [Ability.strength, Ability.dexterity, Ability.constitution,
   Ability.intelligence, Ability.wisdom, Ability.charisma]

/-- STANDARD_ARRAY from CharactersPage.tsx 197. -/
def STANDARD_ARRAY : List Int := [15, 14, 13, 12, 10, 8]

/-- The standard branch of validateAbilities (CharactersPage.tsx 656-664):
keys.every(k => !!standardAssigned[k]).  An assignment is a map from ability
keys to numbers where 0 stands for the JS falsy unassigned states (a missing
key, or Number of the empty Select option). -/
def validateAbilitiesStandard (a : Ability → Int) : Bool :=
  abilityKeys.all (fun k => !(a k == 0))

/-- Record update standardAssigned[key] = v performed by the Select onChange
handler in CharactersPage.tsx 1671. -/
def updateAssign (a : Ability → Int) (k : Ability) (v : Int) : Ability → Int :=
  fun k2 => if k2 = k then v else a k2

/-- The option filter of the standard-array Select (CharactersPage.tsx
1665-1666): a value is offered for key k iff it is in STANDARD_ARRAY and is
either not used by any other key or already assigned to k. -/
def standardOptionAllowed (a : Ability → Int) (k : Ability) (v : Int) : Prop :=
  v ∈ STANDARD_ARRAY ∧ ((∀ k2, k2 ≠ k → a k2 ≠ v) ∨ a k = v)

/-- Assignments reachable through the standard-array UI: start from the empty
record, each step either picks the empty Select option (Number of the empty
string, 0) or one of the offered standard-array options. -/
inductive ReachableAssign : (Ability → Int) → Prop where
  | empty : ReachableAssign (fun _ => 0)
  | clear (a : Ability → Int) (k : Ability) :
      ReachableAssign a → ReachableAssign (updateAssign a k 0)
  | assign (a : Ability → Int) (k : Ability) (v : Int) :
      ReachableAssign a → standardOptionAllowed a k v →
      ReachableAssign (updateAssign a k v)

/-- The step-cost table of pointBuyCostFor (CharactersPage.tsx 295) with its
?? 0 default. -/
def pointBuyStepCost (s : Int) : Int :=
  if 9 ≤ s ∧ s ≤ 13 then 1 else if s = 14 ∨ s = 15 then 2 else 0

/-- pointBuyCostFor from CharactersPage.tsx 292-301: 0 for score ≤ 8, else
the for-loop sum of the table entries for s = 9 .. score. -/
def pointBuyCostFor (score : Int) : Int :=
  if score ≤ 8 then 0
  else ((List.range (score - 8).toNat).map (fun i => pointBuyStepCost (9 + i))).sum

/-- The pointbuy branch of validateAbilities (CharactersPage.tsx 688-695):
fails exactly when the summed cost of the six scores exceeds 27. -/
def validateAbilitiesPointBuy (scores : List Int) : Bool :=
  !(decide (27 < (scores.map pointBuyCostFor).sum))

/-- A sample character matching the spec's long-rest example: level 4 Bard,
hit_points 5 of max 20, no hit dice left, one used ability, both first-level
slots used. -/
def baseChar : Character :=
  { id := "c1", name := "Nikki", race := "Half-Elf", className := "Bard",
    background := "Sage", level := 4,
    ability_scores :=
      { strength := 10, dexterity := 12, constitution := 14,
        intelligence := 10, wisdom := 10, charisma := 15 },
    hit_points := 5, armor_class := 12, spells := [], spell_slots := [2],
    max_hit_points := some 20, temp_hp := some 0, hit_dice_remaining := some 0,
    death_saves_success := none, death_saves_failure := none,
    used_abilities := ["x"], spell_slots_used := [("1", [true, true])] }

/-! ### Helper lemmas about the JS array and object models -/

theorem jsToggleAt_length (arr : List Bool) (i : Nat) (h : i < arr.length) :
    (jsToggleAt arr i).length = arr.length := by
  simp [jsToggleAt, h]

theorem jsToggleAt_getD_ne (arr : List Bool) (i j : Nat) (h : i < arr.length)
    (hj : j ≠ i) : (jsToggleAt arr i).getD j false = arr.getD j false := by
  simp only [jsToggleAt, if_pos h]
  simp [List.getD_eq_getElem?_getD, List.getElem?_set_ne (Ne.symm hj)]

theorem jsToggleAt_getD_self (arr : List Bool) (i : Nat) (h : i < arr.length) :
    (jsToggleAt arr i).getD i false = !(arr.getD i false) := by
  simp only [jsToggleAt, if_pos h]
  simp [List.getD_eq_getElem?_getD, List.getElem?_set_eq_of_lt _ h]

theorem set_getD_self (l : List Bool) (i : Nat) (h : i < l.length) :
    l.set i (l.getD i false) = l := by
  have hg : l.getD i false = l.get ⟨i, h⟩ := by
    simp [List.getD_eq_getElem?_getD, List.getElem?_eq_getElem h]
  rw [hg]
  apply List.ext_getElem
  · simp
  · intro j hj hj2
    by_cases hij : i = j
    · subst hij; simp [List.getElem_set_self]
    · simp [List.getElem_set_ne hij]

theorem jsToggleAt_invol (arr : List Bool) (i : Nat) (h : i < arr.length) :
    jsToggleAt (jsToggleAt arr i) i = arr := by
  have h2 : i < (jsToggleAt arr i).length := by rw [jsToggleAt_length arr i h]; exact h
  have hd := jsToggleAt_getD_self arr i h
  simp only [jsToggleAt, if_pos h] at *
  rw [if_pos h2, hd, Bool.not_not, List.set_set]
  exact set_getD_self arr i h

theorem lookup_map_replace_self :
    ∀ (m : List (String × List Bool)) (k : String) (v : List Bool),
    (m.lookup k).isSome →
    (m.map (fun p => if p.1 == k then (k, v) else p)).lookup k = some v
  | [], k, v, h => by simp [List.lookup] at h
  | (k1, v1) :: t, k, v, h => by
    simp only [List.map_cons]
    by_cases hk : k1 = k
    · subst hk
      rw [show (if ((k1, v1).1 == k1) then ((k1 : String), v) else (k1, v1)) = (k1, v) by simp]
      simp [List.lookup]
    · have hne : (k == k1) = false := by simpa using Ne.symm hk
      have ht : (t.lookup k).isSome := by simpa [List.lookup, hne] using h
      rw [show (if ((k1, v1).1 == k) then ((k : String), v) else (k1, v1)) = (k1, v1) by simp [hk]]
      simp only [List.lookup, hne]
      exact lookup_map_replace_self t k v ht

theorem lookup_map_replace_ne :
    ∀ (m : List (String × List Bool)) (k k2 : String) (v : List Bool),
    k2 ≠ k →
    (m.map (fun p => if p.1 == k then (k, v) else p)).lookup k2 = m.lookup k2
  | [], _, _, _, _ => by simp
  | (k1, v1) :: t, k, k2, v, h => by
    simp only [List.map_cons]
    by_cases hk : k1 = k
    · subst hk
      have hne : (k2 == k1) = false := by simpa using h
      rw [show (if ((k1, v1).1 == k1) then ((k1 : String), v) else (k1, v1)) = (k1, v) by simp]
      simp only [List.lookup, hne]
      exact lookup_map_replace_ne t k1 k2 v h
    · rw [show (if ((k1, v1).1 == k) then ((k : String), v) else (k1, v1)) = (k1, v1) by simp [hk]]
      by_cases hk2 : k2 = k1
      · subst hk2; simp [List.lookup]
      · have hne : (k2 == k1) = false := by simpa using hk2
        simp only [List.lookup, hne]
        exact lookup_map_replace_ne t k k2 v h

theorem lookup_append_single_self :
    ∀ (m : List (String × List Bool)) (k : String) (v : List Bool),
    m.lookup k = none → (m ++ [(k, v)]).lookup k = some v
  | [], k, v, _ => by simp [List.lookup]
  | (k1, v1) :: t, k, v, h => by
    by_cases hk : k = k1
    · subst hk; simp [List.lookup] at h
    · have hne : (k == k1) = false := by simpa using hk
      have ht : t.lookup k = none := by simpa [List.lookup, hne] using h
      simp only [List.cons_append, List.lookup, hne]
      exact lookup_append_single_self t k v ht

theorem lookup_append_single_ne :
    ∀ (m : List (String × List Bool)) (k k2 : String) (v : List Bool),
    k2 ≠ k → (m ++ [(k, v)]).lookup k2 = m.lookup k2
  | [], k, k2, v, h => by
    have hne : (k2 == k) = false := by simpa using h
    simp [List.lookup, hne]
  | (k1, v1) :: t, k, k2, v, h => by
    by_cases hk2 : k2 = k1
    · subst hk2; simp [List.lookup]
    · have hne : (k2 == k1) = false := by simpa using hk2
      simp only [List.cons_append, List.lookup, hne]
      exact lookup_append_single_ne t k k2 v h

theorem lookup_setKey_self (m : List (String × List Bool)) (k : String) (v : List Bool) :
    (setKey m k v).lookup k = some v := by
  unfold setKey
  by_cases hs : (m.lookup k).isSome
  · rw [if_pos hs]
    exact lookup_map_replace_self m k v hs
  · rw [if_neg hs]
    exact lookup_append_single_self m k v (Option.not_isSome_iff_eq_none.mp hs)

theorem lookup_setKey_ne (m : List (String × List Bool)) (k k2 : String) (v : List Bool)
    (h : k2 ≠ k) : (setKey m k v).lookup k2 = m.lookup k2 := by
  unfold setKey
  by_cases hs : (m.lookup k).isSome
  · rw [if_pos hs]
    exact lookup_map_replace_ne m k k2 v h
  · rw [if_neg hs]
    exact lookup_append_single_ne m k k2 v h

theorem validateAbilitiesStandard_iff (a : Ability → Int) :
    validateAbilitiesStandard a = true ↔ ∀ k, a k ≠ 0 := by
  rw [validateAbilitiesStandard, List.all_eq_true]
  constructor
  · intro h k
    have hk : k ∈ abilityKeys := by cases k <;> simp [abilityKeys]
    simpa using h k hk
  · intro h k _
    simpa using h k

theorem reachableAssign_invariant {a : Ability → Int} (h : ReachableAssign a) :
    (∀ k, a k = 0 ∨ a k ∈ STANDARD_ARRAY) ∧
    ∀ k1 k2, a k1 ≠ 0 → a k1 = a k2 → k1 = k2 := by
  induction h with
  | empty =>
    exact ⟨fun k => Or.inl rfl, fun k1 k2 h0 _ => absurd rfl h0⟩
  | clear a k _ ih =>
    obtain ⟨hvals, hinj⟩ := ih
    constructor
    · intro k1
      by_cases hk : k1 = k
      · subst hk; left; simp [updateAssign]
      · simpa [updateAssign, hk] using hvals k1
    · intro k1 k2 h0 heq
      by_cases h1 : k1 = k
      · subst h1; simp [updateAssign] at h0
      · by_cases h2 : k2 = k
        · subst h2
          simp [updateAssign, h1] at h0 heq
          exact absurd heq h0
        · simp only [updateAssign, if_neg h1, if_neg h2] at h0 heq
          exact hinj k1 k2 h0 heq
  | assign a k v _ hallow ih =>
    obtain ⟨hvals, hinj⟩ := ih
    obtain ⟨hvmem, hfree⟩ := hallow
    have hv0 : v ≠ 0 := by
      intro h0
      subst h0
      simp [STANDARD_ARRAY] at hvmem
    constructor
    · intro k1
      by_cases hk : k1 = k
      · subst hk; right; simpa [updateAssign] using hvmem
      · simpa [updateAssign, hk] using hvals k1
    · intro k1 k2 h0 heq
      by_cases h1 : k1 = k <;> by_cases h2 : k2 = k
      · exact h1.trans h2.symm
      · subst h1
        have heq2 : v = a k2 := by simpa [updateAssign, h2] using heq
        rcases hfree with hfr | hak
        · exact absurd heq2.symm (hfr k2 h2)
        · exact hinj k1 k2 (by rw [hak]; exact hv0) (by rw [hak, heq2])
      · subst h2
        have heq2 : a k1 = v := by simpa [updateAssign, h1] using heq
        have h02 : a k1 ≠ 0 := by simpa [updateAssign, h1] using h0
        rcases hfree with hfr | hak
        · exact absurd heq2 (hfr k1 h1)
        · exact hinj k1 k2 h02 (heq2.trans hak.symm)
      · have heq2 : a k1 = a k2 := by simpa [updateAssign, h1, h2] using heq
        have h02 : a k1 ≠ 0 := by simpa [updateAssign, h1] using h0
        exact hinj k1 k2 h02 heq2

/-! ### Claims -/

/-- Claim C9: for every integer score, getAbilityModifier computes the
mathematical floor of (score - 10) / 2, with no error cases; the spot values
are modifier 10 = 0, modifier 15 = 2, modifier 8 = -1, modifier 20 = 5. -/
theorem getAbilityModifier_floor_spec :
    (∀ s : Int, getAbilityModifier s = ⌊((s : ℚ) - 10) / 2⌋) ∧
    getAbilityModifier 10 = 0 ∧ getAbilityModifier 15 = 2 ∧
    getAbilityModifier 8 = -1 ∧ getAbilityModifier 20 = 5 := by
  refine ⟨fun s => ?_, by decide, by decide, by decide, by decide⟩
  unfold getAbilityModifier
  have h : ((s : ℚ) - 10) / 2 = ((s - 10 : ℤ) : ℚ) / ((2 : ℕ) : ℚ) := by push_cast; ring
  rw [h, Rat.floor_intCast_div_natCast, Int.fdiv_eq_ediv _ (by norm_num)]
  norm_num

/-- Claim C3: for every character with stored max hit points m ≥ 0 and every
integer input, the Current HP handler clamps the input into [0, m], so the
result satisfies 0 ≤ hp ≤ m; temp_hp (and max itself) are untouched. -/
theorem setHitPoints_clamps (c : Character) (raw m : Int)
    (hm : c.max_hit_points = some m) (h0 : 0 ≤ m) :
    (setHitPoints c raw).hit_points = max 0 (min raw m) ∧
    0 ≤ (setHitPoints c raw).hit_points ∧
    (setHitPoints c raw).hit_points ≤ m ∧
    (setHitPoints c raw).temp_hp = c.temp_hp ∧
    (setHitPoints c raw).max_hit_points = c.max_hit_points := by
  have h1 : (setHitPoints c raw).hit_points = max 0 (min raw m) := by
    simp [setHitPoints, hm]
  refine ⟨h1, ?_, ?_, rfl, rfl⟩ <;> rw [h1] <;> omega

/-- Witness for C3 at the spec's examples: max 20, input -5 gives 0 and
input 999 gives 20. -/
theorem setHitPoints_clamps_witness :
    (setHitPoints baseChar (-5)).hit_points = 0 ∧
    (setHitPoints baseChar 999).hit_points = 20 := by
  have h1 := (setHitPoints_clamps baseChar (-5) 20 rfl (by decide)).1
  have h2 := (setHitPoints_clamps baseChar 999 20 rfl (by decide)).1
  exact ⟨by rw [h1]; decide, by rw [h2]; decide⟩

/-- Claim C4: the Max HP handler clamps the new maximum to at least 1, and
when the current hit_points exceeded the new maximum they are clamped down
to it (so the result is min of the old hit_points and the new maximum); the
spec example hp 15, max 20, input 10 yields hp 10 and max 10. -/
theorem setMaxHitPoints_clamps (c : Character) (raw : Int) :
    (setMaxHitPoints c raw).max_hit_points = some (max 1 raw) ∧
    (1 : Int) ≤ max 1 raw ∧
    (setMaxHitPoints c raw).hit_points = min c.hit_points (max 1 raw) ∧
    (setMaxHitPoints c raw).temp_hp = c.temp_hp ∧
    (setMaxHitPoints { baseChar with hit_points := 15 } 10).hit_points = 10 ∧
    (setMaxHitPoints { baseChar with hit_points := 15 } 10).max_hit_points = some 10 := by
  refine ⟨?_, le_max_left 1 raw, ?_, ?_, by decide, by decide⟩ <;>
    unfold setMaxHitPoints <;>
    by_cases h : c.hit_points > max 1 raw
  · rw [if_pos h]
  · rw [if_neg h]
  · rw [if_pos h]
    show max 1 raw = min c.hit_points (max 1 raw)
    omega
  · rw [if_neg h]
    show c.hit_points = min c.hit_points (max 1 raw)
    omega
  · rw [if_pos h]
  · rw [if_neg h]

/-- Claim C1: long rest on a character of level ≥ 1 with stored hit dice
remaining r and stored max hit points m clears used_abilities, clears
spell_slots_used, restores hit_points to m, and sets hit_dice_remaining to
min(level, r + max(1, floor(level / 2))). -/
theorem applyLongRest_spec (c : Character) (r m : Int)
    (hL : 1 ≤ c.level) (hr : c.hit_dice_remaining = some r)
    (hm : c.max_hit_points = some m) :
    (applyLongRest c).used_abilities = [] ∧
    (applyLongRest c).spell_slots_used = [] ∧
    (applyLongRest c).hit_points = m ∧
    (applyLongRest c).hit_dice_remaining =
      some (min c.level (r + max 1 (Int.fdiv c.level 2))) := by
  have hlvl : jsOrOne c.level = c.level := by unfold jsOrOne; split <;> omega
  refine ⟨rfl, rfl, ?_, ?_⟩
  · simp [applyLongRest, hm]
  · simp [applyLongRest, hlvl, hr]

/-- Witness for C1 at the spec's example: level 4, remaining 0, max 20, one
used ability and both first-level slots used; the long rest yields empty
used_abilities, empty spell_slots_used, hit_points 20 and remaining 2. -/
theorem applyLongRest_spec_witness :
    (applyLongRest baseChar).used_abilities = [] ∧
    (applyLongRest baseChar).spell_slots_used = [] ∧
    (applyLongRest baseChar).hit_points = 20 ∧
    (applyLongRest baseChar).hit_dice_remaining = some 2 := by
  have h := applyLongRest_spec baseChar 0 20 (by decide) rfl rfl
  refine ⟨h.1, h.2.1, h.2.2.1, ?_⟩
  rw [h.2.2.2]; decide

/-- Claim C5: spending a hit die is a no-op when the stored hit dice
remaining r is ≤ 0; otherwise, for a roll in [1, class die size], it adds
max(0, roll + CON modifier) to hit_points, clamped so the result never
exceeds the stored max hit points m, and decrements hit_dice_remaining by
exactly 1, never below 0; no other field changes. -/
theorem spendHitDie_spec (c : Character) (roll r m : Int)
    (hr : c.hit_dice_remaining = some r) (hm : c.max_hit_points = some m)
    (hroll : 1 ≤ roll ∧ roll ≤ classHitDie c.className) :
    (r ≤ 0 → spendHitDie c roll = c) ∧
    (0 < r →
      (spendHitDie c roll).hit_points =
        min m (c.hit_points +
          max 0 (roll + getAbilityModifier c.ability_scores.constitution)) ∧
      (spendHitDie c roll).hit_points ≤ m ∧
      (spendHitDie c roll).hit_dice_remaining = some (r - 1) ∧
      0 ≤ r - 1 ∧
      (spendHitDie c roll).level = c.level ∧
      (spendHitDie c roll).max_hit_points = c.max_hit_points ∧
      (spendHitDie c roll).used_abilities = c.used_abilities ∧
      (spendHitDie c roll).spell_slots_used = c.spell_slots_used) := by
  constructor
  · intro hneg
    unfold spendHitDie
    rw [hr]
    simp only [Option.getD_some]
    rw [if_pos hneg]
  · intro hpos
    have key : spendHitDie c roll = { c with
        hit_points := min m (c.hit_points +
          max 0 (roll + getAbilityModifier c.ability_scores.constitution)),
        hit_dice_remaining := some (max 0 (r - 1)) } := by
      unfold spendHitDie
      rw [hr]
      simp only [Option.getD_some]
      rw [if_neg (by omega), hm]
      simp only [Option.getD_some]
    rw [key]
    refine ⟨rfl, min_le_left _ _, ?_, by omega, rfl, rfl, rfl, rfl⟩
    show some (max 0 (r - 1)) = some (r - 1)
    congr 1
    omega

/-- Witness for C5: with 3 dice left, CON modifier +2 and a roll of 6 the
character heals to min(20, 5 + 8) = 13 and drops to 2 dice; with 0 dice left
the operation returns the character unchanged. -/
theorem spendHitDie_spec_witness :
    (spendHitDie { baseChar with hit_dice_remaining := some 3 } 6).hit_points = 13 ∧
    (spendHitDie { baseChar with hit_dice_remaining := some 3 } 6).hit_dice_remaining = some 2 ∧
    spendHitDie baseChar 6 = baseChar := by
  have h := spendHitDie_spec { baseChar with hit_dice_remaining := some 3 } 6 3 20
    rfl rfl (by decide)
  have h2 := spendHitDie_spec baseChar 6 0 20 rfl rfl (by decide)
  have hp := h.2 (by decide)
  refine ⟨?_, ?_, h2.1 (by decide)⟩
  · rw [hp.1]; decide
  · rw [hp.2.2.1]; decide

/-- Claim C6: level-up increments level by exactly 1; for the class with
level-dependent HP growth (Bard, the d8 class, where the fixed average 5 is
die/2 + 1), both hit_points and the stored nonzero max hit points m grow by
5 + CON modifier under the average choice or by the caller-supplied
pre-rolled amount + CON modifier, with no internal rolling; no other stored
field changes, and a class without growth changes nothing but level. -/
theorem levelUp_spec (c : Character) (choice : HPChoice) (m : Int)
    (hB : c.className = "Bard") (hm : c.max_hit_points = some m) (hm0 : m ≠ 0) :
    (levelUp c choice).level = c.level + 1 ∧
    (levelUp c choice).hit_points = c.hit_points +
      (match choice with
       | HPChoice.average => 5 + getAbilityModifier c.ability_scores.constitution
       | HPChoice.rolled rl => rl + getAbilityModifier c.ability_scores.constitution) ∧
    (levelUp c choice).max_hit_points = some (m +
      (match choice with
       | HPChoice.average => 5 + getAbilityModifier c.ability_scores.constitution
       | HPChoice.rolled rl => rl + getAbilityModifier c.ability_scores.constitution)) ∧
    (5 : Int) = Int.fdiv (classHitDie "Bard") 2 + 1 ∧
    (levelUp c choice).ability_scores = c.ability_scores ∧
    (levelUp c choice).spell_slots = c.spell_slots ∧
    (levelUp c choice).spell_slots_used = c.spell_slots_used ∧
    (levelUp c choice).used_abilities = c.used_abilities ∧
    (levelUp c choice).hit_dice_remaining = c.hit_dice_remaining ∧
    (levelUp c choice).armor_class = c.armor_class ∧
    ∀ c2 : Character, c2.className ≠ "Bard" →
      levelUp c2 choice = { c2 with level := c2.level + 1 } := by
  have hlast : ∀ c2 : Character, c2.className ≠ "Bard" →
      levelUp c2 choice = { c2 with level := c2.level + 1 } := by
    intro c2 hc2
    unfold levelUp
    rw [if_neg hc2]
  cases choice with
  | average =>
    have key : levelUp c HPChoice.average = { c with
        level := c.level + 1,
        hit_points := c.hit_points +
          (5 + getAbilityModifier c.ability_scores.constitution),
        max_hit_points := some (m +
          (5 + getAbilityModifier c.ability_scores.constitution)) } := by
      unfold levelUp
      rw [if_pos hB, hm]
      simp [hm0]
    rw [key]
    exact ⟨rfl, rfl, rfl, by decide, rfl, rfl, rfl, rfl, rfl, rfl, hlast⟩
  | rolled rl =>
    have key : levelUp c (HPChoice.rolled rl) = { c with
        level := c.level + 1,
        hit_points := c.hit_points +
          (rl + getAbilityModifier c.ability_scores.constitution),
        max_hit_points := some (m +
          (rl + getAbilityModifier c.ability_scores.constitution)) } := by
      unfold levelUp
      rw [if_pos hB, hm]
      simp [hm0]
    rw [key]
    exact ⟨rfl, rfl, rfl, by decide, rfl, rfl, rfl, rfl, rfl, rfl, hlast⟩

/-- Witness for C6: the level 4 Bard with CON modifier +2, hp 5, max 20:
the average choice yields level 5, hp 12, max 27; a pre-rolled 3 yields
hp 10, max 25. -/
theorem levelUp_spec_witness :
    (levelUp baseChar HPChoice.average).level = 5 ∧
    (levelUp baseChar HPChoice.average).hit_points = 12 ∧
    (levelUp baseChar HPChoice.average).max_hit_points = some 27 ∧
    (levelUp baseChar (HPChoice.rolled 3)).hit_points = 10 ∧
    (levelUp baseChar (HPChoice.rolled 3)).max_hit_points = some 25 := by
  have h1 := levelUp_spec baseChar HPChoice.average 20 rfl rfl (by decide)
  have h2 := levelUp_spec baseChar (HPChoice.rolled 3) 20 rfl rfl (by decide)
  refine ⟨?_, ?_, ?_, ?_, ?_⟩
  · rw [h1.1]; decide
  · rw [h1.2.1]; decide
  · rw [h1.2.2.1]; decide
  · rw [h2.2.1]; decide
  · rw [h2.2.2.1]; decide

/-- Claim C10: for kind in success/failure and index i < 3, on a character
whose effective death-save arrays (a missing array defaults to
[false, false, false]) have length 3, the toggle flips exactly index i of
the chosen array, keeps both arrays at length 3, leaves the other array and
every other field unchanged, and toggling the same index twice restores the
death-save arrays to their original values. -/
theorem toggleDeathSave_spec (c : Character) (kind : DSKind) (i : Nat)
    (hi : i < 3) (hs : (dsArr c DSKind.success).length = 3)
    (hf : (dsArr c DSKind.failure).length = 3) :
    (dsArr (toggleDeathSave c kind i) kind).length = 3 ∧
    (dsArr (toggleDeathSave c kind i) kind).getD i false =
      !((dsArr c kind).getD i false) ∧
    (∀ j, j < 3 → j ≠ i →
      (dsArr (toggleDeathSave c kind i) kind).getD j false =
        (dsArr c kind).getD j false) ∧
    (∀ kind2, kind2 ≠ kind →
      dsArr (toggleDeathSave c kind i) kind2 = dsArr c kind2) ∧
    (toggleDeathSave c kind i).hit_points = c.hit_points ∧
    (toggleDeathSave c kind i).level = c.level ∧
    (toggleDeathSave c kind i).max_hit_points = c.max_hit_points ∧
    (toggleDeathSave c kind i).spell_slots_used = c.spell_slots_used ∧
    (toggleDeathSave c kind i).used_abilities = c.used_abilities ∧
    ∀ kind2, dsArr (toggleDeathSave (toggleDeathSave c kind i) kind i) kind2 =
      dsArr c kind2 := by
  cases kind with
  | success =>
    have hlen : i < (dsArr c DSKind.success).length := by rw [hs]; exact hi
    have harr : dsArr (toggleDeathSave c DSKind.success i) DSKind.success =
        jsToggleAt (dsArr c DSKind.success) i := rfl
    refine ⟨?_, ?_, ?_, ?_, rfl, rfl, rfl, rfl, rfl, ?_⟩
    · rw [harr, jsToggleAt_length _ _ hlen, hs]
    · rw [harr]
      exact jsToggleAt_getD_self _ _ hlen
    · intro j _ hj
      rw [harr]
      exact jsToggleAt_getD_ne _ _ _ hlen hj
    · intro kind2 hk2
      cases kind2 with
      | success => exact absurd rfl hk2
      | failure => rfl
    · intro kind2
      cases kind2 with
      | success =>
        have harr2 : dsArr (toggleDeathSave (toggleDeathSave c DSKind.success i)
            DSKind.success i) DSKind.success =
            jsToggleAt (jsToggleAt (dsArr c DSKind.success) i) i := rfl
        rw [harr2]
        exact jsToggleAt_invol _ _ hlen
      | failure => rfl
  | failure =>
    have hlen : i < (dsArr c DSKind.failure).length := by rw [hf]; exact hi
    have harr : dsArr (toggleDeathSave c DSKind.failure i) DSKind.failure =
        jsToggleAt (dsArr c DSKind.failure) i := rfl
    refine ⟨?_, ?_, ?_, ?_, rfl, rfl, rfl, rfl, rfl, ?_⟩
    · rw [harr, jsToggleAt_length _ _ hlen, hf]
    · rw [harr]
      exact jsToggleAt_getD_self _ _ hlen
    · intro j _ hj
      rw [harr]
      exact jsToggleAt_getD_ne _ _ _ hlen hj
    · intro kind2 hk2
      cases kind2 with
      | success => rfl
      | failure => exact absurd rfl hk2
    · intro kind2
      cases kind2 with
      | success => rfl
      | failure =>
        have harr2 : dsArr (toggleDeathSave (toggleDeathSave c DSKind.failure i)
            DSKind.failure i) DSKind.failure =
            jsToggleAt (jsToggleAt (dsArr c DSKind.failure) i) i := rfl
        rw [harr2]
        exact jsToggleAt_invol _ _ hlen

/-- Witness for C10: toggling success index 1 on a character with no stored
arrays marks exactly that circle, and toggling it again restores all three
to false. -/
theorem toggleDeathSave_spec_witness :
    dsArr (toggleDeathSave baseChar DSKind.success 1) DSKind.success =
      [false, true, false] ∧
    dsArr (toggleDeathSave (toggleDeathSave baseChar DSKind.success 1)
      DSKind.success 1) DSKind.success = [false, false, false] := by
  have h := toggleDeathSave_spec baseChar DSKind.success 1 (by decide)
    (by decide) (by decide)
  refine ⟨by decide, ?_⟩
  rw [h.2.2.2.2.2.2.2.2.2 DSKind.success]
  decide

/-- The used-array toggleSpellSlot operates on: the stored entry for the
level (a missing entry defaulting to empty) padded with false up to the
resolved max slot count. -/
def paddedUsedArr (c : Character) (level : Int) : List Bool :=
  padFalse ((c.spell_slots_used.lookup (toString level)).getD [])
    (resolveMaxSlots c level).toNat

/-- Claim C2 counterexample: with declared slots [2] at level 1 and no stored
entry, slotIndex 2 lies outside [0, 1], yet toggleSpellSlot is not a no-op:
it changes the character, storing used-array [false, false, true]. -/
theorem toggleSpellSlot_out_of_range_cex :
    resolveMaxSlots { baseChar with spell_slots_used := [] } 1 = 2 ∧
    ¬ ((2 : Nat) < (resolveMaxSlots { baseChar with spell_slots_used := [] } 1).toNat) ∧
    toggleSpellSlot { baseChar with spell_slots_used := [] } 1 2 ≠
      { baseChar with spell_slots_used := [] } ∧
    (toggleSpellSlot { baseChar with spell_slots_used := [] } 1 2).spell_slots_used =
      [("1", [false, false, true])] := by
  decide

/-- Claim C2 (amended): toggleSpellSlot resolves the max slot count for the
level (declared spell_slots entry, else the Bard first-level fallback of 2,
else 0), pads the stored used-array with false up to that count, then
performs the JS index assignment at slotIndex: inside the padded array it
flips that boolean; at or past its end it is not a no-op but extends the
array (gap entries reading false) and writes true.  The entry for the level
is rewritten, every other level's entry and every other character field is
unchanged; with declared slots [2] at level 1 and no stored entry,
toggle(1,1) stores [false, true]. -/
theorem toggleSpellSlot_spec (c : Character) (level : Int) (i : Nat) :
    ((toggleSpellSlot c level i).spell_slots_used.lookup (toString level) =
      some (jsToggleAt (paddedUsedArr c level) i)) ∧
    (∀ k2, k2 ≠ toString level →
      (toggleSpellSlot c level i).spell_slots_used.lookup k2 =
        c.spell_slots_used.lookup k2) ∧
    (i < (paddedUsedArr c level).length →
      (toggleSpellSlot c level i).spell_slots_used.lookup (toString level) =
        some ((paddedUsedArr c level).set i (!((paddedUsedArr c level).getD i false)))) ∧
    ((paddedUsedArr c level).length ≤ i →
      (toggleSpellSlot c level i).spell_slots_used.lookup (toString level) =
        some ((paddedUsedArr c level) ++
          List.replicate (i - (paddedUsedArr c level).length) false ++ [true])) ∧
    (toggleSpellSlot c level i).hit_points = c.hit_points ∧
    (toggleSpellSlot c level i).spell_slots = c.spell_slots ∧
    (toggleSpellSlot c level i).level = c.level ∧
    (toggleSpellSlot c level i).max_hit_points = c.max_hit_points ∧
    (toggleSpellSlot { baseChar with spell_slots_used := [] } 1 1).spell_slots_used =
      [("1", [false, true])] := by
  have hssu : (toggleSpellSlot c level i).spell_slots_used =
      setKey c.spell_slots_used (toString level)
        (jsToggleAt (paddedUsedArr c level) i) := by
    unfold toggleSpellSlot paddedUsedArr
    cases hlk : c.spell_slots_used.lookup (toString level) with
    | none => simp [hlk, padFalse]
    | some a => simp [hlk, padFalse]
  have h1 : (toggleSpellSlot c level i).spell_slots_used.lookup (toString level) =
      some (jsToggleAt (paddedUsedArr c level) i) := by
    rw [hssu, lookup_setKey_self]
  refine ⟨h1, ?_, ?_, ?_, rfl, rfl, rfl, rfl, by decide⟩
  · intro k2 hk2
    rw [hssu, lookup_setKey_ne _ _ _ _ hk2]
  · intro hlt
    rw [h1]
    unfold jsToggleAt
    rw [if_pos hlt]
  · intro hge
    rw [h1]
    unfold jsToggleAt
    rw [if_neg (by omega)]

/-- Witness for C2 (amended) at the spec's example: declared slots [2] at
level 1, no stored entry, in-range toggle(1,1) yields [false, true]. -/
theorem toggleSpellSlot_spec_witness :
    (toggleSpellSlot { baseChar with spell_slots_used := [] } 1 1).spell_slots_used.lookup "1" =
      some [false, true] := by
  have h := (toggleSpellSlot_spec { baseChar with spell_slots_used := [] } 1 1).1
  rw [show ("1" : String) = toString (1 : Int) from rfl, h]
  decide

/-- An assignment giving 15 to two abilities and leaving 8 unused; used to
probe the standard branch of validateAbilities. -/
def dupAssign : Ability → Int
  | Ability.strength => 15
  | Ability.dexterity => 15
  | Ability.constitution => 14
  | Ability.intelligence => 13
  | Ability.wisdom => 12
  | Ability.charisma => 10

/-- Claim C7 counterexample: the standard branch of validateAbilities passes
an assignment that gives the array value 15 to two abilities and leaves the
array value 8 unused, so the validation alone does not enforce a bijection. -/
theorem validateAbilitiesStandard_cex :
    validateAbilitiesStandard dupAssign = true ∧
    dupAssign Ability.strength = dupAssign Ability.dexterity ∧
    Ability.strength ≠ Ability.dexterity ∧
    (8 : Int) ∈ STANDARD_ARRAY ∧
    (∀ k, dupAssign k ≠ 8) := by
  decide

/-- Claim C7 (amended): the standard branch of validateAbilities checks only
that every ability has a nonzero assigned value; duplicate values are
excluded upstream by the Select option filter, so every assignment reachable
through the standard-array UI that passes validation is a bijection onto
STANDARD_ARRAY: injective, valued in the array, and hitting every array
value. -/
theorem validateAbilitiesStandard_reachable (a : Ability → Int)
    (h : ReachableAssign a) :
    (validateAbilitiesStandard a = true ↔ ∀ k, a k ≠ 0) ∧
    (validateAbilitiesStandard a = true →
      Function.Injective a ∧ (∀ k, a k ∈ STANDARD_ARRAY) ∧
      ∀ v ∈ STANDARD_ARRAY, ∃ k, a k = v) := by
  obtain ⟨hvals, hinj⟩ := reachableAssign_invariant h
  refine ⟨validateAbilitiesStandard_iff a, fun hv => ?_⟩
  have hnz : ∀ k, a k ≠ 0 := (validateAbilitiesStandard_iff a).mp hv
  have hInj : Function.Injective a := fun k1 k2 he => hinj k1 k2 (hnz k1) he
  have hmem : ∀ k, a k ∈ STANDARD_ARRAY := fun k => (hvals k).resolve_left (hnz k)
  refine ⟨hInj, hmem, ?_⟩
  have hsub : Finset.image a Finset.univ ⊆ STANDARD_ARRAY.toFinset := by
    intro v hv2
    obtain ⟨k, -, hk⟩ := Finset.mem_image.mp hv2
    exact List.mem_toFinset.mpr (hk ▸ hmem k)
  have hcard : STANDARD_ARRAY.toFinset.card ≤ (Finset.image a Finset.univ).card := by
    rw [Finset.card_image_of_injective _ hInj, Finset.card_univ]
    decide
  have heq : Finset.image a Finset.univ = STANDARD_ARRAY.toFinset :=
    Finset.eq_of_subset_of_card_le hsub hcard
  intro v hvmem
  have hv3 : v ∈ Finset.image a Finset.univ := by
    rw [heq]
    exact List.mem_toFinset.mpr hvmem
  obtain ⟨k, -, hk⟩ := Finset.mem_image.mp hv3
  exact ⟨k, hk⟩

/-- A full assignment of the standard array in order, reachable through the
UI one Select at a time. -/
def goodAssign : Ability → Int
  | Ability.strength => 15
  | Ability.dexterity => 14
  | Ability.constitution => 13
  | Ability.intelligence => 12
  | Ability.wisdom => 10
  | Ability.charisma => 8

/-- Witness for C7 (amended): the in-order full assignment is UI-reachable,
passes validation, and is a bijection onto the standard array. -/
theorem validateAbilitiesStandard_reachable_witness :
    validateAbilitiesStandard goodAssign = true ∧
    Function.Injective goodAssign ∧
    (∀ k, goodAssign k ∈ STANDARD_ARRAY) ∧
    ∀ v ∈ STANDARD_ARRAY, ∃ k, goodAssign k = v := by
  have h1 : ReachableAssign (updateAssign (fun _ => 0) Ability.strength 15) :=
    ReachableAssign.assign _ _ _ ReachableAssign.empty ⟨by decide, Or.inl (by decide)⟩
  have h2 := ReachableAssign.assign _ Ability.dexterity 14 h1 ⟨by decide, Or.inl (by decide)⟩
  have h3 := ReachableAssign.assign _ Ability.constitution 13 h2 ⟨by decide, Or.inl (by decide)⟩
  have h4 := ReachableAssign.assign _ Ability.intelligence 12 h3 ⟨by decide, Or.inl (by decide)⟩
  have h5 := ReachableAssign.assign _ Ability.wisdom 10 h4 ⟨by decide, Or.inl (by decide)⟩
  have h6 := ReachableAssign.assign _ Ability.charisma 8 h5 ⟨by decide, Or.inl (by decide)⟩
  have hgood : ReachableAssign goodAssign := by
    have he : updateAssign (updateAssign (updateAssign (updateAssign (updateAssign
        (updateAssign (fun _ => 0) Ability.strength 15) Ability.dexterity 14)
        Ability.constitution 13) Ability.intelligence 12) Ability.wisdom 10)
        Ability.charisma 8 = goodAssign := by
      funext k
      cases k <;> rfl
    rw [← he]
    exact h6
  have h := validateAbilitiesStandard_reachable goodAssign hgood
  exact ⟨by decide, h.2 (by decide)⟩

/-- Claim C8: the point-buy cost of a score in the 8..15 range equals the
spec formula, the sum over t = 9..score of a per-step cost that is 1 through
13 and 2 for 14 and 15; in particular cost 8 = 0, cost 13 = 5, cost 15 = 9;
and the point-buy branch of validateAbilities passes exactly when the summed
cost of the scores is at most 27. -/
theorem pointBuy_spec :
    (∀ s : Int, 8 ≤ s → s ≤ 15 →
      pointBuyCostFor s = ∑ t in Finset.Icc 9 s, (if t ≤ 13 then 1 else 2)) ∧
    pointBuyCostFor 8 = 0 ∧ pointBuyCostFor 13 = 5 ∧ pointBuyCostFor 15 = 9 ∧
    ∀ scores : List Int,
      (validateAbilitiesPointBuy scores = true ↔
        (scores.map pointBuyCostFor).sum ≤ 27) := by
  refine ⟨?_, by decide, by decide, by decide, ?_⟩
  · intro s h1 h2
    interval_cases s <;> decide
  · intro scores
    unfold validateAbilitiesPointBuy
    simp [not_lt]

/-- Witness for C8: the formula instantiated at score 13, and the six scores
costing 9 + 9 + 9 + 1 = 28 points fail validation. -/
theorem pointBuy_spec_witness :
    pointBuyCostFor 13 = ∑ t in Finset.Icc (9 : Int) 13, (if t ≤ 13 then 1 else 2) ∧
    validateAbilitiesPointBuy [15, 15, 15, 9, 8, 8] = false := by
  have h := pointBuy_spec
  refine ⟨h.1 13 (by norm_num) (by norm_num), ?_⟩
  have hiff := h.2.2.2.2 [15, 15, 15, 9, 8, 8]
  have hgt : ¬ ((([15, 15, 15, 9, 8, 8] : List Int).map pointBuyCostFor).sum ≤ 27) := by
    decide
  cases hb : validateAbilitiesPointBuy [15, 15, 15, 9, 8, 8]
  · rfl
  · exact absurd (hiff.mp hb) hgt
